import Mathlib

/-!
Verification of the winit event-loop dispatcher.

Shallow embedding of the event-loop dispatcher of the winit repository:
the Win32 control-flow runner (src/platform_impl/windows/event_loop.rs),
the Cocoa handler (src/platform_impl/macos/event_loop.rs), and the X11
events loop (src/platform/linux/x11/mod.rs).  Instants are modelled as
natural numbers; the user callback is modelled as a function that, given
the delivered event and the current control flow, returns the control
flow it leaves behind.  A Rust panic (`unreachable!()`, `unimplemented!()`)
is modelled as `Option.none`.
-/

namespace Winit

/-- Type `ControlFlow` from src/event_loop.rs (as consumed by the runner).
`WaitUntil` carries the resume instant, modelled as a natural number. -/
inductive ControlFlow where
  | Poll : ControlFlow
  | Wait : ControlFlow
  | WaitUntil (resume_time : Nat) : ControlFlow
  | Exit : ControlFlow
deriving DecidableEq, Repr

/-- Type `StartCause` from src/event.rs: the cause carried by `NewEvents`. -/
inductive StartCause where
  | Init : StartCause
  | Poll : StartCause
  | WaitCancelled (start : Nat) (requested_resume : Option Nat) : StartCause
  | ResumeTimeReached (start : Nat) (requested_resume : Nat) : StartCause
deriving DecidableEq, Repr

/-- The kinds of window events the verified claims mention
(src/event.rs `WindowEvent`, restricted to the constructors the
X11 handlers under study emit). -/
inductive WindowEventKind where
  | CloseRequested : WindowEventKind
  | Destroyed : WindowEventKind
  | Refresh : WindowEventKind
  | CursorLeft (device : Nat) : WindowEventKind
  | RedrawRequested : WindowEventKind
deriving DecidableEq, Repr

/-- The canonical event type delivered to the user callback
(src/event.rs `Event<T>`, with the user payload fixed to `Nat` and
window/device identities modelled as naturals). -/
inductive Event where
  | NewEvents (cause : StartCause) : Event
  | WindowEvent (window_id : Nat) (kind : WindowEventKind) : Event
  | UserEvent (payload : Nat) : Event
  | EventsCleared : Event
  | LoopDestroyed : Event
deriving DecidableEq, Repr

/-- An event is a non-lifecycle event: a window or user event, as opposed
to the `NewEvents` / `EventsCleared` / `LoopDestroyed` brackets that only
the runner itself may emit. -/
def nonLifecycle : Event → Bool
  | Event.NewEvents _ => false
  | Event.EventsCleared => false
  | Event.LoopDestroyed => false
  | _ => true

/-- The user callback: receives the event and the current control flow and
returns the control flow it leaves in place (`FnMut(Event<T>, _, &mut ControlFlow)`).
The other side effects of the callback are irrelevant to the runner. -/
def Callback : Type := Event → ControlFlow → ControlFlow

/-- Type `RunnerState` from src/platform_impl/windows/event_loop.rs, lines 295-308. -/
inductive RunnerState where
  | New : RunnerState
  | Idle (started : Nat) : RunnerState
  | DeferredNewEvents (started : Nat) : RunnerState
  | HandlingEvents : RunnerState
deriving DecidableEq, Repr

/-- Structure `EventLoopRunner` (src/platform_impl/windows/event_loop.rs, lines 274-281),
keeping the fields the runner logic reads and writes.  The
`trigger_newevents_on_redraw` atomic flag lives on the event loop but is
written only by `call_event_handler`, so it is carried here. -/
structure EventLoopRunner where
  control_flow : ControlFlow
  runner_state : RunnerState
  in_modal_loop : Bool
  trigger_newevents_on_redraw : Bool
deriving DecidableEq, Repr

/-- Method `EventLoopRunner::call_event_handler` (lines 465-480): updates the
redraw flag on the lifecycle events, then invokes the user callback.  When
the control flow is already `Exit` the callback receives a dummy
`&mut ControlFlow::Exit`, so its mutation is discarded and the flow stays
`Exit`.  Returns the updated runner and the singleton list of events
delivered to the callback. -/
def call_event_handler (cb : Callback) (r : EventLoopRunner) (e : Event) :
    EventLoopRunner × List Event :=
  let flag := match e with
    | Event.NewEvents _ => true
    | Event.EventsCleared => false
    | _ => r.trigger_newevents_on_redraw
  let cf := match r.control_flow with
    | ControlFlow.Exit => ControlFlow.Exit
    | _ => cb e r.control_flow
  ({ r with trigger_newevents_on_redraw := flag, control_flow := cf }, [e])

/-- Method `EventLoopRunner::new_events` (lines 311-360).  `now` is the value of
`Instant::now()` during this call. -/
def new_events (cb : Callback) (now : Nat) (r : EventLoopRunner) :
    EventLoopRunner × List Event :=
  match r.runner_state with
  | RunnerState.HandlingEvents => (r, [])
  | RunnerState.DeferredNewEvents _ => (r, [])
  | RunnerState.New =>
      let (r1, out) := call_event_handler cb r (Event.NewEvents StartCause.Init)
      ({ r1 with runner_state := RunnerState.HandlingEvents }, out)
  | RunnerState.Idle wait_start =>
      match r.control_flow with
      | ControlFlow.Poll =>
          let (r1, out) := call_event_handler cb r (Event.NewEvents StartCause.Poll)
          ({ r1 with runner_state := RunnerState.HandlingEvents }, out)
      | ControlFlow.WaitUntil resume_time =>
          if now ≥ resume_time then
            let (r1, out) := call_event_handler cb r
              (Event.NewEvents (StartCause.ResumeTimeReached wait_start resume_time))
            ({ r1 with runner_state := RunnerState.HandlingEvents }, out)
          else
            ({ r with runner_state := RunnerState.DeferredNewEvents wait_start }, [])
      | ControlFlow.Wait =>
          ({ r with runner_state := RunnerState.DeferredNewEvents wait_start }, [])
      | ControlFlow.Exit =>
          ({ r with runner_state := RunnerState.DeferredNewEvents wait_start }, [])

/-- Method `EventLoopRunner::process_event` (lines 362-420).  The `RedrawWindow`
poke of the modal redraw window is an OS side effect with no bearing on the
runner state and is not modelled.  The `ControlFlow::Exit` arm of the
deferred-`NewEvents` match is `unreachable!()` in the source; reaching it
is a panic, modelled as `none`. -/
def process_event (cb : Callback) (now : Nat) (r : EventLoopRunner) (e : Event) :
    Option (EventLoopRunner × List Event) :=
  let (r1, out1) := new_events cb now r
  match r1.runner_state with
  | RunnerState.DeferredNewEvents wait_start =>
      match r1.control_flow with
      | ControlFlow.Wait =>
          let (r2, out2) := call_event_handler cb r1
            (Event.NewEvents (StartCause.WaitCancelled wait_start none))
          let (r3, out3) := call_event_handler cb
            { r2 with runner_state := RunnerState.HandlingEvents } e
          some (r3, out1 ++ out2 ++ out3)
      | ControlFlow.WaitUntil resume_time =>
          let cause := if now ≥ resume_time then
              StartCause.ResumeTimeReached wait_start resume_time
            else
              StartCause.WaitCancelled wait_start (some resume_time)
          let (r2, out2) := call_event_handler cb r1 (Event.NewEvents cause)
          let (r3, out3) := call_event_handler cb
            { r2 with runner_state := RunnerState.HandlingEvents } e
          some (r3, out1 ++ out2 ++ out3)
      | ControlFlow.Poll =>
          let (r2, out2) := call_event_handler cb r1 (Event.NewEvents StartCause.Poll)
          let (r3, out3) := call_event_handler cb
            { r2 with runner_state := RunnerState.HandlingEvents } e
          some (r3, out1 ++ out2 ++ out3)
      | ControlFlow.Exit => none
  | _ =>
      let (r3, out3) := call_event_handler cb
        { r1 with runner_state := RunnerState.HandlingEvents } e
      some (r3, out1 ++ out3)

/-- Method `EventLoopRunner::events_cleared` (lines 422-463). -/
def events_cleared (cb : Callback) (now : Nat) (r : EventLoopRunner) :
    EventLoopRunner × List Event :=
  match r.runner_state with
  | RunnerState.HandlingEvents =>
      let (r1, out) := call_event_handler cb r Event.EventsCleared
      ({ r1 with runner_state := RunnerState.Idle now }, out)
  | RunnerState.New => (r, [])
  | RunnerState.Idle _ => (r, [])
  | RunnerState.DeferredNewEvents wait_start =>
      match r.control_flow with
      | ControlFlow.Poll =>
          let (r1, out1) := call_event_handler cb r (Event.NewEvents StartCause.Poll)
          let (r2, out2) := call_event_handler cb r1 Event.EventsCleared
          ({ r2 with runner_state := RunnerState.Idle wait_start }, out1 ++ out2)
      | ControlFlow.WaitUntil resume_time =>
          if now ≥ resume_time then
            let (r1, out1) := call_event_handler cb r
              (Event.NewEvents (StartCause.ResumeTimeReached wait_start resume_time))
            let (r2, out2) := call_event_handler cb r1 Event.EventsCleared
            ({ r2 with runner_state := RunnerState.Idle wait_start }, out1 ++ out2)
          else
            ({ r with runner_state := RunnerState.Idle wait_start }, [])
      | ControlFlow.Wait =>
          ({ r with runner_state := RunnerState.Idle wait_start }, [])
      | ControlFlow.Exit =>
          ({ r with runner_state := RunnerState.Idle wait_start }, [])

/-- One `process_event` call per delivered native event, each with its own
arrival instant, accumulating the events passed to the user callback.
This covers the dispatches of the `run_return` loop (lines 221-230) in
which a window procedure hands the event to the runner through
`send_event`/`process_event`.  The WM_PAINT and
REQUEST_REDRAW_NO_NEWEVENTS arms of `public_window_callback` bypass this
route while the runner is `Idle` or `DeferredNewEvents`, calling
`call_event_handler` directly (see `request_redraw_no_newevents`). -/
def process_events (cb : Callback) (es : List (Nat × Event)) (r : EventLoopRunner) :
    Option (EventLoopRunner × List Event) :=
  match es with
  | [] => some (r, [])
  | (now, e) :: rest =>
      match process_event cb now r e with
      | none => none
      | some (r1, out1) =>
          match process_events cb rest r1 with
          | none => none
          | some (r2, out2) => some (r2, out1 ++ out2)

/-- One turn of the `run_return` main loop (lines 219-246): `new_events`,
then one `process_event` per native message that reaches the runner
through `send_event`, then `events_cleared`.  Returns `none` if any
`process_event` panics.  `turn` covers exactly the events dispatched
through `process_event`; the redraw deliveries that the WM_PAINT and
REQUEST_REDRAW_NO_NEWEVENTS arms make directly while the runner is `Idle`
or `DeferredNewEvents` stand outside it (see
`request_redraw_no_newevents`). -/
def turn (cb : Callback) (now_start : Nat) (es : List (Nat × Event)) (now_end : Nat)
    (r : EventLoopRunner) : Option (EventLoopRunner × List Event) :=
  let (r1, out1) := new_events cb now_start r
  match process_events cb es r1 with
  | none => none
  | some (r2, out2) =>
      let (r3, out3) := events_cleared cb now_end r2
      some (r3, out1 ++ out2 ++ out3)

/-- The runner as built at the top of `run_return` (lines 184-197):
default control flow (`Poll`), state `New`, not in a modal loop. -/
def initialRunner : EventLoopRunner :=
  { control_flow := ControlFlow.Poll
  , runner_state := RunnerState.New
  , in_modal_loop := false
  , trigger_newevents_on_redraw := true }

/-- Structure `ELRShared` (src/platform_impl/windows/event_loop.rs, lines 270-273):
the `RefCell<Option<EventLoopRunner>>` plus the secondary event buffer.
`borrowed = true` models the `RefCell` being mutably borrowed, which is
the case exactly while a runner hook (and hence the user callback) is
executing. -/
structure ELRShared where
  runner : Option EventLoopRunner
  borrowed : Bool
  buffer : List Event
deriving DecidableEq, Repr

/-- Method `ELRShared::send_event` (lines 283-293): if the runner cell can be
mutably borrowed and a runner is installed, dispatch through
`process_event` at once; otherwise append the event to the secondary
buffer.  Returns the updated shared state and the events delivered to the
user callback by this call; `none` models a panic inside `process_event`. -/
def send_event (cb : Callback) (now : Nat) (sh : ELRShared) (e : Event) :
    Option (ELRShared × List Event) :=
  match sh.borrowed, sh.runner with
  | false, some r =>
      match process_event cb now r e with
      | none => none
      | some (r1, out) => some ({ sh with runner := some r1 }, out)
  | _, _ => some ({ sh with buffer := sh.buffer ++ [e] }, [])

/-- One turn of the `run_return` main loop acting on the shared cell
(lines 219-246).  The loop body reads and writes only the runner; no
statement in it touches `ELRShared.buffer` (the only drain of the buffer
in the source is the start-up loop at lines 201-207, before the runner is
installed), so the buffer passes through unchanged. -/
def shared_turn (cb : Callback) (now_start : Nat) (es : List (Nat × Event))
    (now_end : Nat) (sh : ELRShared) : Option (ELRShared × List Event) :=
  match sh.runner with
  | none => none
  | some r =>
      match turn cb now_start es now_end r with
      | none => none
      | some (r1, out) => some ({ sh with runner := some r1 }, out)

/-- The start-up drain of `run_return` (lines 198-209): pop events off the
buffer front and feed each to `process_event` until the buffer is empty,
then install the runner. -/
def drain_buffer (cb : Callback) (now : Nat) (es : List Event) (r : EventLoopRunner) :
    Option (EventLoopRunner × List Event) :=
  match es with
  | [] => some (r, [])
  | e :: rest =>
      match process_event cb now r e with
      | none => none
      | some (r1, out1) =>
          match drain_buffer cb now rest r1 with
          | none => none
          | some (r2, out2) => some (r2, out1 ++ out2)

/-- The REQUEST_REDRAW_NO_NEWEVENTS arm of `public_window_callback`
(src/platform_impl/windows/event_loop.rs, lines 809-823): when the runner
is `Idle` or `DeferredNewEvents`, the `RedrawRequested` event for the
window is passed to `call_event_handler` directly, bypassing
`process_event` — no deferred `NewEvents` is emitted first and the runner
state is left unchanged; in any other state nothing happens.  The
WM_PAINT arm (lines 824-846) dispatches the same way in the
`Idle`/`DeferredNewEvents` states and falls back to `send_event`
otherwise. -/
def request_redraw_no_newevents (cb : Callback) (window : Nat) (r : EventLoopRunner) :
    EventLoopRunner × List Event :=
  match r.runner_state with
  | RunnerState.Idle _ =>
      call_event_handler cb r (Event.WindowEvent window WindowEventKind.RedrawRequested)
  | RunnerState.DeferredNewEvents _ =>
      call_event_handler cb r (Event.WindowEvent window WindowEventKind.RedrawRequested)
  | _ => (r, [])

/-- The WM_DESTROY arm of `public_window_callback`
(src/platform_impl/windows/event_loop.rs, lines 796-807): after revoking
drag-drop (an OS side effect), exactly one `Destroyed` event for the
window is sent through `ELRShared::send_event` and the per-window subclass
state is dropped; there is no window registry on the Win32 path and no
duplicate guard. -/
def wm_destroy (cb : Callback) (now : Nat) (sh : ELRShared) (window : Nat) :
    Option (ELRShared × List Event) :=
  send_event cb now sh (Event.WindowEvent window WindowEventKind.Destroyed)

/-! ## X11 events loop: window registry and destroy handling
(src/platform/linux/x11/mod.rs) -/

/-- The slice of `EventsLoop` state that the destroy-related handlers
consult: the keys of the `windows: Arc<Mutex<HashMap<WindowId, WindowData>>>`
registry.  The IME context table is manipulated alongside it
(`remove_context`, whose module is not part of the sources under study);
its removal call is treated as succeeding. -/
structure X11State where
  windows : List Nat
deriving DecidableEq, Repr

/-- The native X11 events whose handlers the destroy claims cover. -/
inductive XEvent where
  | DestroyNotify (window : Nat) : XEvent
  | Expose (window : Nat) : XEvent
  | XILeave (device : Nat) (window : Nat) : XEvent
deriving DecidableEq, Repr

/-- Method `EventsLoop::process_event` restricted to the three handlers above:
`DestroyNotify` (lines 518-536) removes the window from the registry and
unconditionally calls back with `Destroyed`; `Expose` (lines 538-545)
calls back with `Refresh` with no registry guard; `XI_Leave`
(lines 852-868) is suppressed when the window is no longer registered. -/
def processXEvent (st : X11State) (xe : XEvent) : X11State × List Event :=
  match xe with
  | XEvent.DestroyNotify w =>
      ({ st with windows := st.windows.filter (fun w2 => w2 ≠ w) },
       [Event.WindowEvent w WindowEventKind.Destroyed])
  | XEvent.Expose w =>
      (st, [Event.WindowEvent w WindowEventKind.Refresh])
  | XEvent.XILeave d w =>
      if st.windows.contains w then
        (st, [Event.WindowEvent w (WindowEventKind.CursorLeft d)])
      else
        (st, [])

/-- Process a sequence of native X11 events, accumulating the events
delivered to the callback. -/
def processXEvents (st : X11State) (xs : List XEvent) : X11State × List Event :=
  match xs with
  | [] => (st, [])
  | xe :: rest =>
      let (st1, out1) := processXEvent st xe
      let (st2, out2) := processXEvents st1 rest
      (st2, out1 ++ out2)

/-! ## Cocoa handler (src/platform_impl/macos/event_loop.rs) -/

/-- The Cocoa `Handler` (lines 89-96), keeping the fields `wakeup` reads
and writes.  `has_callback` models `callback.is_some()`. -/
structure Handler where
  control_flow : ControlFlow
  control_flow_prev : ControlFlow
  has_callback : Bool
deriving DecidableEq, Repr

/-- The cause computed by `Handler::wakeup` (lines 111-132): `Poll` under
`ControlFlow::Poll`; `Poll` under `ControlFlow::Exit` as well (the
commented-out panic is dead); the `Wait` and `WaitUntil` arms fall to
`unimplemented!()`, a panic, modelled as `none`. -/
def wakeup_cause : ControlFlow → Option StartCause
  | ControlFlow.Poll => some StartCause.Poll
  | ControlFlow.Exit => some StartCause.Poll
  | ControlFlow.Wait => none
  | ControlFlow.WaitUntil _ => none

/-- Method `Handler::wakeup` (lines 109-136): records the previous control flow,
computes the start cause, and if a callback is installed delivers
`NewEvents(cause)` to it (which may mutate the control flow).  `none`
models the `unimplemented!()` panic. -/
def Handler.wakeup (cb : Callback) (h : Handler) : Option (Handler × List Event) :=
  let h1 := { h with control_flow_prev := h.control_flow }
  match wakeup_cause h1.control_flow with
  | none => none
  | some cause =>
      if h1.has_callback then
        some ({ h1 with control_flow := cb (Event.NewEvents cause) h1.control_flow },
              [Event.NewEvents cause])
      else
        some (h1, [])

/-! ## Proxies: cross-thread wakeup and user-event submission -/

/-- Type `EventsLoopClosed` (the `Closed` error of the spec). -/
inductive EventsLoopClosed where
  | Closed : EventsLoopClosed
deriving DecidableEq, Repr

/-- The observable state behind an X11 `EventsLoopProxy`: whether the
owning `EventsLoop` is still alive (it owns the `Arc`s behind both the
`pending_wakeup` and `display` weak references), and the current value of
the `pending_wakeup` atomic flag. -/
structure X11ProxyTarget where
  loop_alive : Bool
  pending_wakeup : Bool
deriving DecidableEq, Repr

/-- Method `EventsLoopProxy::wakeup` (src/platform/linux/x11/mod.rs, lines
1113-1142): upgrade both weak references; if either is dead (the owning
loop has been dropped) return `Err(EventsLoopClosed)`; otherwise set the
`pending_wakeup` flag, post the dummy-window `ClientMessage`, and return
`Ok(())`. -/
def x11_wakeup (t : X11ProxyTarget) : X11ProxyTarget × Except EventsLoopClosed Unit :=
  if t.loop_alive then
    ({ t with pending_wakeup := true }, Except.ok ())
  else
    (t, Except.error EventsLoopClosed.Closed)

/-- Method `EventLoopProxy::send_event` on Win32
(src/platform_impl/windows/event_loop.rs, lines 600-611): `PostMessageW`
to the thread-message target window succeeds (returns nonzero) exactly
while that window is alive, i.e. until the owning loop is dropped; on
success the payload is pushed onto the channel and `Ok(())` is returned,
otherwise `Err(EventLoopClosed)`. -/
def win32_send_event (target_alive : Bool) (queue : List Nat) (payload : Nat) :
    List Nat × Except EventsLoopClosed Unit :=
  if target_alive then
    (queue ++ [payload], Except.ok ())
  else
    (queue, Except.error EventsLoopClosed.Closed)

/-- Method `Proxy::send_event` on Cocoa (src/platform_impl/macos/event_loop.rs,
lines 395-420): the body begins with `unimplemented!()`, so every call
panics before reaching the dead posting code.  `none` models the panic. -/
def mac_send_event (payload : Nat) : Option (Except EventsLoopClosed Unit) :=
  let _ := payload
  none

/-! ## X11 scroll-axis tracking (src/platform/linux/x11/mod.rs)

The scroll positions and increments are `f64` in the source; they are
modelled as exact rationals, which keeps the arithmetic of lines 771-772
(`delta = (x - info.position) / info.increment; info.position = x`)
verbatim while abstracting from floating-point rounding. -/

/-- Type `ScrollOrientation` (lines 1327-1331). -/
inductive ScrollOrientation where
  | Vertical : ScrollOrientation
  | Horizontal : ScrollOrientation
deriving DecidableEq, Repr

/-- Type `ScrollAxis` (lines 1320-1325): the per-axis cache of a physical
device. -/
structure ScrollAxis where
  increment : ℚ
  orientation : ScrollOrientation
  position : ℚ
deriving DecidableEq, Repr

/-- The scroll-axis arm of the `XI_Motion` valuator loop (lines 770-785):
compute the delta from the cached position and store the new absolute
position. -/
def scroll_update (info : ScrollAxis) (x : ℚ) : ℚ × ScrollAxis :=
  ((x - info.position) / info.increment, { info with position := x })

/-- The `LineDelta` emitted for a scroll delta (lines 777-781): horizontal
deltas go on the x component; vertical deltas are negated (X11 vertical
scroll coordinates are opposite to the canonical convention) and go on the
y component. -/
def line_delta (o : ScrollOrientation) (delta : ℚ) : ℚ × ℚ :=
  match o with
  | ScrollOrientation.Horizontal => (delta, 0)
  | ScrollOrientation.Vertical => (0, -delta)

/-- Feed a sequence of absolute valuator values to one scroll axis,
collecting the raw deltas in order. -/
def scroll_feed (info : ScrollAxis) (xs : List ℚ) : List ℚ × ScrollAxis :=
  match xs with
  | [] => ([], info)
  | x :: rest =>
      let (d, info1) := scroll_update info x
      let (ds, info2) := scroll_feed info1 rest
      (d :: ds, info2)

/-! ## Win32 wait-deadline conversion (src/platform_impl/windows/event_loop.rs) -/

/-- Largest value of a `u64`. -/
def u64_max : Nat := 2 ^ 64 - 1

/-- Largest value of a `u32` (`DWORD::max_value()`). -/
def u32_max : Nat := 2 ^ 32 - 1

/-- Constant `winbase::INFINITE`, the platform infinite timeout, `0xFFFFFFFF`. -/
def INFINITE : Nat := 4294967295

/-- Operation `u64::checked_mul`: `none` on overflow past `u64_max`. -/
def checked_mul64 (a b : Nat) : Option Nat :=
  if a * b ≤ u64_max then some (a * b) else none

/-- Operation `u64::checked_add`: `none` on overflow past `u64_max`. -/
def checked_add64 (a b : Nat) : Option Nat :=
  if a + b ≤ u64_max then some (a + b) else none

/-- Type `std::time::Duration`: a (seconds, subsecond nanoseconds) pair with
the nanoseconds below one billion. -/
structure Duration where
  secs : Nat
  subsec_nanos : Nat
  nanos_lt : subsec_nanos < 1000000000
deriving Repr

/-- Function `dur2timeout` (lines 510-529): milliseconds with nanosecond precision
rounded up, computed through checked `u64` arithmetic; any overflow, or a
result above `DWORD::max_value()`, yields `INFINITE`. -/
def dur2timeout (dur : Duration) : Nat :=
  let step := (checked_mul64 dur.secs 1000).bind (fun ms =>
    (checked_add64 ms (dur.subsec_nanos / 1000000)).bind (fun ms2 =>
      checked_add64 ms2 (if dur.subsec_nanos % 1000000 > 0 then 1 else 0)))
  match step with
  | some ms => if ms > u32_max then INFINITE else ms
  | none => INFINITE

/-- The specified value of `dur2timeout`: the duration in milliseconds
rounded up to the next whole millisecond, computed without overflow.
Stated from the words of the claim, for comparison with `dur2timeout`. -/
def roundUpMs (dur : Duration) : Nat :=
  (dur.secs * 1000000000 + dur.subsec_nanos + 999999) / 1000000

/-! ## Concrete inputs used by the witnesses and counterexamples -/

/-- A user callback that leaves the control flow unchanged. -/
def cb_id : Callback := fun _ cf => cf

/-- A user callback that requests `ControlFlow::Exit` on every event. -/
def cb_exit : Callback := fun _ _ => ControlFlow.Exit

/-- A runner currently handling events under `ControlFlow::Poll`. -/
def handlingRunner : EventLoopRunner :=
  { control_flow := ControlFlow.Poll
  , runner_state := RunnerState.HandlingEvents
  , in_modal_loop := false
  , trigger_newevents_on_redraw := true }

/-- The runner left behind by a turn that ended at instant 2: idling,
with the redraw flag cleared by the `EventsCleared` delivery. -/
def idleRunner2 : EventLoopRunner :=
  { control_flow := ControlFlow.Poll
  , runner_state := RunnerState.Idle 2
  , in_modal_loop := false
  , trigger_newevents_on_redraw := false }

/-- A runner with a deferred `NewEvents` under `ControlFlow::Wait`. -/
def deferredWaitRunner : EventLoopRunner :=
  { control_flow := ControlFlow.Wait
  , runner_state := RunnerState.DeferredNewEvents 5
  , in_modal_loop := false
  , trigger_newevents_on_redraw := false }

/-! ## Supporting lemmas on the runner hooks -/

/-- Lemma: `call_event_handler` never changes the runner state. -/
theorem call_event_handler_runner_state (cb : Callback) (r : EventLoopRunner) (e : Event) :
    ((call_event_handler cb r e).1).runner_state = r.runner_state := by
  obtain ⟨cf, rs, m, f⟩ := r
  cases e <;> cases cf <;> rfl

/-- In `HandlingEvents`, `process_event` delivers exactly the incoming
event and stays in `HandlingEvents`. -/
theorem process_event_handling (cb : Callback) (now : Nat) (r : EventLoopRunner) (e : Event)
    (h : r.runner_state = RunnerState.HandlingEvents) :
    ∃ r1, process_event cb now r e = some (r1, [e]) ∧
      r1.runner_state = RunnerState.HandlingEvents := by
  obtain ⟨cf, rs, m, f⟩ := r
  simp only at h
  subst h
  cases cf <;> cases e <;>
    exact ⟨_, rfl, rfl⟩

/-- In `HandlingEvents`, a sequence of `process_event` calls delivers
exactly the incoming events in order and stays in `HandlingEvents`. -/
theorem process_events_handling (cb : Callback) (es : List (Nat × Event)) (r : EventLoopRunner)
    (h : r.runner_state = RunnerState.HandlingEvents) :
    ∃ r2, process_events cb es r = some (r2, es.map Prod.snd) ∧
      r2.runner_state = RunnerState.HandlingEvents := by
  induction es generalizing r with
  | nil => exact ⟨r, rfl, h⟩
  | cons p rest ih =>
      obtain ⟨r1, hpe, h1⟩ := process_event_handling cb p.1 r p.2 h
      obtain ⟨r2, hpes, h2⟩ := ih r1 h1
      refine ⟨r2, ?_, h2⟩
      simp [process_events, hpe, hpes]

/-- In `DeferredNewEvents`, `process_event` panics under `Exit` and
otherwise emits exactly one `NewEvents` with the control-flow-determined
cause, followed by the incoming event, ending in `HandlingEvents`. -/
theorem process_event_deferred_aux (cb : Callback) (now : Nat) (r : EventLoopRunner)
    (e : Event) (t0 : Nat)
    (hs : r.runner_state = RunnerState.DeferredNewEvents t0) :
    (r.control_flow = ControlFlow.Exit → process_event cb now r e = none) ∧
    (r.control_flow ≠ ControlFlow.Exit →
      ∃ c r1, process_event cb now r e = some (r1, [Event.NewEvents c, e]) ∧
        r1.runner_state = RunnerState.HandlingEvents ∧
        (r.control_flow = ControlFlow.Wait → c = StartCause.WaitCancelled t0 none) ∧
        (∀ d, r.control_flow = ControlFlow.WaitUntil d →
          c = if now ≥ d then StartCause.ResumeTimeReached t0 d
              else StartCause.WaitCancelled t0 (some d)) ∧
        (r.control_flow = ControlFlow.Poll → c = StartCause.Poll)) := by
  obtain ⟨cf, rs, m, f⟩ := r
  simp only at hs
  subst hs
  cases cf <;> cases e <;>
    simp [process_event, new_events, call_event_handler] <;>
    (try split_ifs) <;>
    exact ⟨_, _, ⟨rfl, rfl⟩, rfl, rfl⟩

/-- Whenever `process_event` returns (does not panic), it delivers either
exactly the incoming event, or exactly one `NewEvents` followed by the
incoming event. -/
theorem process_event_out_shape (cb : Callback) (now : Nat) (r : EventLoopRunner)
    (e : Event) (r1 : EventLoopRunner) (out : List Event)
    (h : process_event cb now r e = some (r1, out)) :
    out = [e] ∨ ∃ c, out = [Event.NewEvents c, e] := by
  obtain ⟨cf, rs, m, f⟩ := r
  cases rs <;> cases cf <;>
    simp [process_event, new_events, call_event_handler] at h <;>
    (try split_ifs at h) <;>
    (try simp [call_event_handler] at h) <;>
    (obtain ⟨-, h2⟩ := h
     rw [← h2]
     first
       | exact Or.inl rfl
       | exact Or.inr ⟨_, rfl⟩)

/-- From a turn-start state (`New` or `Idle`), `new_events` either emits a
single `NewEvents` and enters `HandlingEvents`, or emits nothing and
enters `DeferredNewEvents`. -/
theorem new_events_start_shape (cb : Callback) (now : Nat) (r : EventLoopRunner)
    (hstart : r.runner_state = RunnerState.New ∨ ∃ t, r.runner_state = RunnerState.Idle t) :
    (∃ c r1, new_events cb now r = (r1, [Event.NewEvents c]) ∧
      r1.runner_state = RunnerState.HandlingEvents) ∨
    (∃ t0, new_events cb now r =
      ({ r with runner_state := RunnerState.DeferredNewEvents t0 }, [])) := by
  obtain ⟨cf, rs, m, f⟩ := r
  rcases hstart with h | ⟨t, h⟩ <;> simp only at h <;> subst h <;>
    cases cf <;>
    simp [new_events, call_event_handler] <;>
    (try split_ifs) <;>
    first
      | exact ⟨_, _, ⟨rfl, rfl⟩, rfl⟩
      | exact ⟨_, _, rfl, rfl⟩
      | exact ⟨_, rfl, rfl⟩
      | exact ⟨_, rfl⟩
      | exact Or.inl ⟨_, _, ⟨rfl, rfl⟩, rfl⟩
      | exact Or.inl ⟨_, _, rfl, rfl⟩
      | exact Or.inr ⟨_, rfl, rfl⟩
      | exact Or.inr ⟨_, rfl⟩

/-- In `HandlingEvents`, `events_cleared` emits exactly `EventsCleared`
and idles. -/
theorem events_cleared_handling (cb : Callback) (now : Nat) (r : EventLoopRunner)
    (h : r.runner_state = RunnerState.HandlingEvents) :
    ∃ r1, events_cleared cb now r = (r1, [Event.EventsCleared]) ∧
      r1.runner_state = RunnerState.Idle now := by
  obtain ⟨cf, rs, m, f⟩ := r
  simp only at h
  subst h
  cases cf <;> exact ⟨_, rfl, rfl⟩

/-- In `DeferredNewEvents`, `events_cleared` emits either nothing or a
`NewEvents` immediately followed by `EventsCleared`. -/
theorem events_cleared_deferred (cb : Callback) (now : Nat) (r : EventLoopRunner) (t0 : Nat)
    (h : r.runner_state = RunnerState.DeferredNewEvents t0) :
    (∃ r1, events_cleared cb now r = (r1, [])) ∨
    (∃ r1 c, events_cleared cb now r = (r1, [Event.NewEvents c, Event.EventsCleared])) := by
  obtain ⟨cf, rs, m, f⟩ := r
  simp only at h
  subst h
  cases cf <;>
    simp only [events_cleared, call_event_handler] <;>
    (try split_ifs) <;>
    first
      | exact Or.inl ⟨_, rfl⟩
      | exact Or.inr ⟨_, _, rfl⟩

/-! ## The claims -/

/-- C1, counterexample.  The REQUEST_REDRAW_NO_NEWEVENTS arm of
`public_window_callback` (lines 809-823; the WM_PAINT arm at lines
824-846 dispatches the same way in these states) passes `RedrawRequested`
to `call_event_handler` directly while the runner is `Idle` or
`DeferredNewEvents`: right after a turn has closed with `EventsCleared`
the callback receives a window event with no `NewEvents` before it, and
likewise while a deferred turn has not yet emitted its `NewEvents` — a
window event delivered outside any lifecycle bracket, refuting the claim
as stated (the source acknowledges this at lines 409-411). -/
theorem lifecycle_bracket_redraw_counterexample :
    events_cleared cb_id 2 handlingRunner = (idleRunner2, [Event.EventsCleared]) ∧
    request_redraw_no_newevents cb_id 7 idleRunner2 =
      (idleRunner2, [Event.WindowEvent 7 WindowEventKind.RedrawRequested]) ∧
    request_redraw_no_newevents cb_id 7 deferredWaitRunner =
      (deferredWaitRunner, [Event.WindowEvent 7 WindowEventKind.RedrawRequested]) := by
  exact ⟨rfl, rfl, rfl⟩

/-- C1, amended.  Per-iteration lifecycle bracketing holds for every event
routed through `process_event`: over one turn of the `run_return` main
loop started from a turn-start state, if the user callback runs at all
then the delivered sequence is exactly one `NewEvents`, followed by the
adapter-delivered (non-lifecycle) events of the turn in order, followed by
exactly one `EventsCleared`.  Excluded from the guarantee are only the
`RedrawRequested` deliveries that the WM_PAINT and
REQUEST_REDRAW_NO_NEWEVENTS arms make directly while the runner is `Idle`
or `DeferredNewEvents`, which run outside the bracket. -/
theorem per_iteration_lifecycle_bracket (cb : Callback) (now_start now_end : Nat)
    (es : List (Nat × Event)) (r r1 : EventLoopRunner) (out : List Event)
    (hstart : r.runner_state = RunnerState.New ∨ ∃ t, r.runner_state = RunnerState.Idle t)
    (hnl : ∀ p ∈ es, nonLifecycle p.2 = true)
    (hturn : turn cb now_start es now_end r = some (r1, out)) :
    out = [] ∨
      ∃ c, out = Event.NewEvents c :: (es.map Prod.snd ++ [Event.EventsCleared]) ∧
        ∀ e ∈ es.map Prod.snd, nonLifecycle e = true := by
  have hmid : ∀ e ∈ es.map Prod.snd, nonLifecycle e = true := by
    intro e he
    obtain ⟨p, hp, hpe⟩ := List.mem_map.mp he
    exact hpe ▸ hnl p hp
  rcases new_events_start_shape cb now_start r hstart with
    ⟨c, rA, hne, hA⟩ | ⟨t0, hne⟩
  · -- `new_events` emitted `NewEvents c` and entered `HandlingEvents`.
    obtain ⟨rB, hpes, hB⟩ := process_events_handling cb es rA hA
    obtain ⟨rC, hec, -⟩ := events_cleared_handling cb now_end rB hB
    simp only [turn, hne, hpes, hec, Option.some.injEq, Prod.mk.injEq] at hturn
    obtain ⟨-, h2⟩ := hturn
    refine Or.inr ⟨c, ?_, hmid⟩
    simp [← h2]
  · -- `new_events` deferred; case on whether any event arrived.
    cases es with
    | nil =>
        have hA : ({ r with runner_state := RunnerState.DeferredNewEvents t0 } :
            EventLoopRunner).runner_state = RunnerState.DeferredNewEvents t0 := rfl
        rcases events_cleared_deferred cb now_end _ t0 hA with ⟨rE, hec⟩ | ⟨rE, c, hec⟩
        · left
          simp only [turn, hne, process_events, hec, Option.some.injEq,
            Prod.mk.injEq] at hturn
          obtain ⟨-, h2⟩ := hturn
          simp [← h2]
        · refine Or.inr ⟨c, ?_, hmid⟩
          simp only [turn, hne, process_events, hec, Option.some.injEq,
            Prod.mk.injEq] at hturn
          obtain ⟨-, h2⟩ := hturn
          simp [← h2]
    | cons p rest =>
        have hA : ({ r with runner_state := RunnerState.DeferredNewEvents t0 } :
            EventLoopRunner).runner_state = RunnerState.DeferredNewEvents t0 := rfl
        by_cases hcf : ({ r with runner_state := RunnerState.DeferredNewEvents t0 } :
            EventLoopRunner).control_flow = ControlFlow.Exit
        · -- would panic: contradicts the turn returning `some`
          have hnone := (process_event_deferred_aux cb p.1 _ p.2 t0 hA).1 hcf
          simp only [turn, hne, process_events, hnone] at hturn
          exact Option.noConfusion hturn
        · obtain ⟨c, rB, hpe, hB, -⟩ :=
            (process_event_deferred_aux cb p.1 _ p.2 t0 hA).2 hcf
          obtain ⟨rC, hpes, hC⟩ := process_events_handling cb rest rB hB
          obtain ⟨rD, hec, -⟩ := events_cleared_handling cb now_end rC hC
          refine Or.inr ⟨c, ?_, hmid⟩
          simp only [turn, hne, process_events, hpe, hpes, hec, Option.some.injEq,
            Prod.mk.injEq] at hturn
          obtain ⟨-, h2⟩ := hturn
          simp [← h2]

/-- Witness for C1: a cold-start turn delivering one user event produces
exactly `[NewEvents Init, UserEvent 7, EventsCleared]`. -/
theorem per_iteration_lifecycle_bracket_witness :
    ([Event.NewEvents StartCause.Init, Event.UserEvent 7, Event.EventsCleared] :
        List Event) = [] ∨
      ∃ c, ([Event.NewEvents StartCause.Init, Event.UserEvent 7, Event.EventsCleared] :
          List Event) =
          Event.NewEvents c ::
            (([(0, Event.UserEvent 7)] : List (Nat × Event)).map Prod.snd ++
              [Event.EventsCleared]) ∧
        ∀ e ∈ ([(0, Event.UserEvent 7)] : List (Nat × Event)).map Prod.snd,
          nonLifecycle e = true :=
  per_iteration_lifecycle_bracket cb_id 0 1 [(0, Event.UserEvent 7)]
    initialRunner _ _ (Or.inl rfl) (by decide) rfl

/-- C2.  The `new_events` transition function: `New` emits
`NewEvents(Init)` and enters `HandlingEvents`; `Idle(t0)` emits
`NewEvents(Poll)` under `Poll`, emits `NewEvents(ResumeTimeReached)` under
`WaitUntil(d)` with `now ≥ d`, and silently defers under `WaitUntil(d)`
with `now < d`, under `Wait`, and under `Exit`; `HandlingEvents` and
`DeferredNewEvents` are left unchanged with no emission. -/
theorem new_events_transition (cb : Callback) (now : Nat) (r : EventLoopRunner) :
    (r.runner_state = RunnerState.New →
      (new_events cb now r).2 = [Event.NewEvents StartCause.Init] ∧
      (new_events cb now r).1.runner_state = RunnerState.HandlingEvents) ∧
    (∀ t0, r.runner_state = RunnerState.Idle t0 →
      (r.control_flow = ControlFlow.Poll →
        (new_events cb now r).2 = [Event.NewEvents StartCause.Poll] ∧
        (new_events cb now r).1.runner_state = RunnerState.HandlingEvents) ∧
      (∀ d, r.control_flow = ControlFlow.WaitUntil d →
        (now ≥ d →
          (new_events cb now r).2 =
            [Event.NewEvents (StartCause.ResumeTimeReached t0 d)] ∧
          (new_events cb now r).1.runner_state = RunnerState.HandlingEvents) ∧
        (now < d →
          new_events cb now r =
            ({ r with runner_state := RunnerState.DeferredNewEvents t0 }, []))) ∧
      ((r.control_flow = ControlFlow.Wait ∨ r.control_flow = ControlFlow.Exit) →
        new_events cb now r =
          ({ r with runner_state := RunnerState.DeferredNewEvents t0 }, []))) ∧
    ((r.runner_state = RunnerState.HandlingEvents ∨
        ∃ t, r.runner_state = RunnerState.DeferredNewEvents t) →
      new_events cb now r = (r, [])) := by
  obtain ⟨cf, rs, m, f⟩ := r
  cases rs <;> cases cf <;>
    simp [new_events, call_event_handler] <;>
    split_ifs with h <;> simp_all

/-- Witness for C2: from the initial state (`New`), `new_events` emits
`NewEvents(Init)` and enters `HandlingEvents`. -/
theorem new_events_transition_witness :
    (new_events cb_id 0 initialRunner).2 = [Event.NewEvents StartCause.Init] ∧
    (new_events cb_id 0 initialRunner).1.runner_state = RunnerState.HandlingEvents :=
  (new_events_transition cb_id 0 initialRunner).1 rfl

/-- C3.  `process_event` in `DeferredNewEvents(t0)` (with the listed
control flows, which exclude `Exit`) first emits exactly one `NewEvents`
whose cause is `WaitCancelled{t0,None}` under `Wait`,
`ResumeTimeReached{t0,d}` under `WaitUntil(d)` with `now ≥ d`,
`WaitCancelled{t0,Some(d)}` under `WaitUntil(d)` with `now < d`, and
`Poll` under `Poll`; the runner then enters `HandlingEvents` and the
incoming event is emitted. -/
theorem process_event_deferred_cause (cb : Callback) (now : Nat) (r : EventLoopRunner)
    (e : Event) (t0 : Nat)
    (hs : r.runner_state = RunnerState.DeferredNewEvents t0)
    (hcf : r.control_flow ≠ ControlFlow.Exit) :
    ∃ c r1, process_event cb now r e = some (r1, [Event.NewEvents c, e]) ∧
      r1.runner_state = RunnerState.HandlingEvents ∧
      (r.control_flow = ControlFlow.Wait → c = StartCause.WaitCancelled t0 none) ∧
      (∀ d, r.control_flow = ControlFlow.WaitUntil d →
        (now ≥ d → c = StartCause.ResumeTimeReached t0 d) ∧
        (now < d → c = StartCause.WaitCancelled t0 (some d))) ∧
      (r.control_flow = ControlFlow.Poll → c = StartCause.Poll) := by
  obtain ⟨c, r1, hpe, h1, hw, hwu, hp⟩ :=
    (process_event_deferred_aux cb now r e t0 hs).2 hcf
  refine ⟨c, r1, hpe, h1, hw, ?_, hp⟩
  intro d hd
  have := hwu d hd
  constructor
  · intro hge
    rw [this, if_pos hge]
  · intro hlt
    rw [this, if_neg (by omega)]

/-- Witness for C3: a deferred runner under `Wait` receiving a user event
emits `NewEvents(WaitCancelled{5,None})` then the event. -/
theorem process_event_deferred_cause_witness :
    ∃ c r1, process_event cb_id 9 deferredWaitRunner (Event.UserEvent 3) =
        some (r1, [Event.NewEvents c, Event.UserEvent 3]) ∧
      r1.runner_state = RunnerState.HandlingEvents ∧
      (deferredWaitRunner.control_flow = ControlFlow.Wait →
        c = StartCause.WaitCancelled 5 none) ∧
      (∀ d, deferredWaitRunner.control_flow = ControlFlow.WaitUntil d →
        (9 ≥ d → c = StartCause.ResumeTimeReached 5 d) ∧
        (9 < d → c = StartCause.WaitCancelled 5 (some d))) ∧
      (deferredWaitRunner.control_flow = ControlFlow.Poll → c = StartCause.Poll) :=
  process_event_deferred_cause cb_id 9 deferredWaitRunner (Event.UserEvent 3) 5
    rfl (by decide)

/-- C4, counterexample.  An event that arrives while the user callback is
executing (the runner cell is borrowed) is appended to the secondary
buffer and is NOT delivered before the next `EventsCleared`: once the
callback returns, the following loop turn emits `EventsCleared` while the
buffered `UserEvent 42` is still sitting in the buffer, never having
reached the callback — the loop body never reads the buffer (its only
drain, lines 198-209, runs before the runner is installed). -/
theorem reentrancy_buffer_not_flushed_counterexample :
    send_event cb_id 0 ⟨some handlingRunner, true, []⟩ (Event.UserEvent 42) =
      some (⟨some handlingRunner, true, [Event.UserEvent 42]⟩, []) ∧
    shared_turn cb_id 1 [] 2 ⟨some handlingRunner, false, [Event.UserEvent 42]⟩ =
      some (⟨some idleRunner2, false, [Event.UserEvent 42]⟩,
            [Event.EventsCleared]) := by
  exact ⟨rfl, rfl⟩

/-- C4, amended.  Every event that arrives while the runner is unavailable
(callback executing — the cell is borrowed — or no runner installed) is
appended to the secondary buffer in arrival order, with no delivery;
events that arrive while the runner is available are dispatched through
`process_event` at once; and a turn of the main loop never drains the
buffer, so events buffered during the run are not delivered before the
next `EventsCleared`. -/
theorem reentrancy_buffering (cb : Callback) (now : Nat) (sh : ELRShared) (e : Event) :
    (sh.borrowed = true →
      send_event cb now sh e = some ({ sh with buffer := sh.buffer ++ [e] }, [])) ∧
    (sh.runner = none →
      send_event cb now sh e = some ({ sh with buffer := sh.buffer ++ [e] }, [])) ∧
    (∀ r, sh.borrowed = false → sh.runner = some r →
      send_event cb now sh e =
        (process_event cb now r e).map
          (fun p => ({ sh with runner := some p.1 }, p.2))) ∧
    (∀ now1 es now2 sh1 out,
      shared_turn cb now1 es now2 sh = some (sh1, out) → sh1.buffer = sh.buffer) := by
  obtain ⟨orn, b, buf⟩ := sh
  refine ⟨?_, ?_, ?_, ?_⟩
  · intro hb
    simp only at hb
    subst hb
    cases orn <;> rfl
  · intro hr
    simp only at hr
    subst hr
    cases b <;> rfl
  · intro r hb hr
    simp only at hb hr
    subst hb
    subst hr
    simp only [send_event]
    cases hpe : process_event cb now r e <;> simp [hpe]
  · intro now1 es now2 sh1 out h
    cases orn with
    | none => simp [shared_turn] at h
    | some r =>
        simp only [shared_turn] at h
        cases ht : turn cb now1 es now2 r with
        | none => rw [ht] at h; exact Option.noConfusion h
        | some p =>
            rw [ht] at h
            obtain ⟨h1, -⟩ := Prod.mk.injEq .. ▸ Option.some.inj h
            rw [← h1]

/-- Witness for C4 (amended): a user event sent while the callback is
executing lands in the buffer undelivered, and the subsequent turn leaves
the buffer unchanged. -/
theorem reentrancy_buffering_witness :
    send_event cb_id 3 ⟨some handlingRunner, true, []⟩ (Event.UserEvent 8) =
      some (⟨some handlingRunner, true, [Event.UserEvent 8]⟩, []) ∧
    (⟨some idleRunner2, false, [Event.UserEvent 8]⟩ : ELRShared).buffer =
      (⟨some handlingRunner, false, [Event.UserEvent 8]⟩ : ELRShared).buffer :=
  ⟨(reentrancy_buffering cb_id 3 ⟨some handlingRunner, true, []⟩
      (Event.UserEvent 8)).1 rfl,
   (reentrancy_buffering cb_id 1 ⟨some handlingRunner, false, [Event.UserEvent 8]⟩
      (Event.UserEvent 8)).2.2.2 1 [] 2 _ _ rfl⟩

/-- C5, counterexample.  The X11 `DestroyNotify` handler calls back with
`Destroyed` unconditionally (it discards the result of the registry
removal), so a duplicate `DestroyNotify` for window 5 yields a second
`Destroyed`, and an `Expose` arriving afterwards still yields a `Refresh`
for the destroyed window: duplicates are not idempotent and events can
follow `Destroyed`. -/
theorem destroyed_exactly_once_counterexample :
    processXEvents ⟨[5]⟩
        [XEvent.DestroyNotify 5, XEvent.DestroyNotify 5, XEvent.Expose 5] =
      (⟨[]⟩,
       [Event.WindowEvent 5 WindowEventKind.Destroyed,
        Event.WindowEvent 5 WindowEventKind.Destroyed,
        Event.WindowEvent 5 WindowEventKind.Refresh]) := by
  rfl

/-- C5, amended.  On X11, each `DestroyNotify` notification for W removes
W from the registry and emits exactly one `Destroyed` — whether or not W
was still registered, so duplicate notifications each emit another
`Destroyed` rather than being idempotent — and only the registry-guarded
handlers (such as `XI_Leave`) suppress events for a destroyed window.  On
Win32, each `WM_DESTROY` for W produces exactly one `Destroyed` through
`send_event`, with no registry involvement and no duplicate guard: while
the runner is unavailable that one event is appended to the secondary
buffer undelivered, and while the runner is available it is delivered at
once, preceded by at most one deferred `NewEvents`. -/
theorem destroyed_once_per_notification (st : X11State) (w d : Nat) :
    processXEvent st (XEvent.DestroyNotify w) =
      ({ windows := st.windows.filter (fun w2 => w2 ≠ w) },
       [Event.WindowEvent w WindowEventKind.Destroyed]) ∧
    (st.windows.contains w = false →
      processXEvent st (XEvent.XILeave d w) = (st, [])) ∧
    (∀ (cb : Callback) (now : Nat) (sh : ELRShared),
      ((sh.borrowed = true ∨ sh.runner = none) →
        wm_destroy cb now sh w =
          some ({ sh with buffer :=
            sh.buffer ++ [Event.WindowEvent w WindowEventKind.Destroyed] }, [])) ∧
      (∀ r sh1 out, sh.borrowed = false → sh.runner = some r →
        wm_destroy cb now sh w = some (sh1, out) →
        sh1.buffer = sh.buffer ∧
        (out = [Event.WindowEvent w WindowEventKind.Destroyed] ∨
         ∃ c, out = [Event.NewEvents c,
                     Event.WindowEvent w WindowEventKind.Destroyed]))) := by
  refine ⟨rfl, ?_, ?_⟩
  · intro h
    have h2 : w ∉ st.windows := by simpa using h
    simp [processXEvent, h2]
  · intro cb now sh
    obtain ⟨orn, b, buf⟩ := sh
    constructor
    · rintro (hb | hr)
      · simp only at hb
        subst hb
        cases orn <;> rfl
      · simp only at hr
        subst hr
        cases b <;> rfl
    · intro r sh1 out hb hr h
      simp only at hb hr
      subst hb
      subst hr
      simp only [wm_destroy, send_event] at h
      rcases hpe : process_event cb now r
          (Event.WindowEvent w WindowEventKind.Destroyed) with - | ⟨pr, pout⟩
      · rw [hpe] at h
        exact Option.noConfusion h
      · rw [hpe] at h
        simp only [Option.some.injEq, Prod.mk.injEq] at h
        obtain ⟨h1, h2⟩ := h
        refine ⟨by rw [← h1], ?_⟩
        rcases process_event_out_shape cb now r _ pr pout hpe with hsh | ⟨c, hsh⟩
        · exact Or.inl (h2 ▸ hsh)
        · exact Or.inr ⟨c, h2 ▸ hsh⟩

/-- Witness for C5 (amended): destroying window 5 from a registry holding
it emits one `Destroyed`; a later `XI_Leave` for the now-unregistered
window is suppressed; and a Win32 `WM_DESTROY` arriving while the
callback is executing appends exactly one `Destroyed` to the buffer. -/
theorem destroyed_once_per_notification_witness :
    processXEvent ⟨[5]⟩ (XEvent.DestroyNotify 5) =
      ({ windows := ([5] : List Nat).filter (fun w2 => w2 ≠ 5) },
       [Event.WindowEvent 5 WindowEventKind.Destroyed]) ∧
    processXEvent ⟨[]⟩ (XEvent.XILeave 2 5) = (⟨[]⟩, []) ∧
    wm_destroy cb_id 0 ⟨some handlingRunner, true, []⟩ 5 =
      some (⟨some handlingRunner, true,
             [Event.WindowEvent 5 WindowEventKind.Destroyed]⟩, []) :=
  ⟨(destroyed_once_per_notification ⟨[5]⟩ 5 2).1,
   (destroyed_once_per_notification ⟨[]⟩ 5 2).2.1 (by decide),
   ((destroyed_once_per_notification ⟨[]⟩ 5 2).2.2 cb_id 0
      ⟨some handlingRunner, true, []⟩).1 (Or.inl rfl)⟩

/-- C10.  The `unreachable!()` arm of `process_event` IS reachable through
the modal-loop path: the `WM_PAINT` handler of the thread-event-target
window (lines 1556-1573) calls `events_cleared` and then, when the control
flow is `Exit`, `new_events`, which parks the runner in
`DeferredNewEvents` (line 356); a subsequent event dispatched to
`process_event` inside the still-running modal loop then takes the
`ControlFlow::Exit` arm of the deferred match (line 414) and panics.
Trace: `new_events` (callback requests `Exit`), `events_cleared`,
`new_events`, `process_event` — the last call returns `none` (panic). -/
theorem modal_exit_deferred_dispatch_panics :
    (events_cleared cb_exit 1 (new_events cb_exit 0 initialRunner).1).1.control_flow =
      ControlFlow.Exit ∧
    (new_events cb_exit 2
        (events_cleared cb_exit 1 (new_events cb_exit 0 initialRunner).1).1).1.runner_state =
      RunnerState.DeferredNewEvents 1 ∧
    process_event cb_exit 3
        (new_events cb_exit 2
          (events_cleared cb_exit 1 (new_events cb_exit 0 initialRunner).1).1).1
        (Event.UserEvent 0) = none := by
  exact ⟨rfl, rfl, rfl⟩

/-- C6.  In the wakeup transition of the Cocoa handler, under
`ControlFlow::Exit` the `NewEvents` delivered to the callback carries
`StartCause::Poll` (line 130 maps `Exit` to `Poll`; the panic is commented
out). -/
theorem cocoa_wakeup_exit_reports_poll (cb : Callback) (h : Handler)
    (hcf : h.control_flow = ControlFlow.Exit) (hcb : h.has_callback = true) :
    Handler.wakeup cb h =
      some ({ h with control_flow_prev := ControlFlow.Exit, control_flow := cb (Event.NewEvents StartCause.Poll) ControlFlow.Exit }, [Event.NewEvents StartCause.Poll]) := by
  obtain ⟨cf, cfp, hc⟩ := h
  simp only at hcf hcb
  subst hcf
  subst hcb
  rfl

/-- Witness for C6: a concrete handler with `Exit` control flow and an
installed callback wakes up reporting `StartCause::Poll`. -/
theorem cocoa_wakeup_exit_reports_poll_witness :
    Handler.wakeup cb_id ⟨ControlFlow.Exit, ControlFlow.Poll, true⟩ =
      some ({ (⟨ControlFlow.Exit, ControlFlow.Poll, true⟩ : Handler) with control_flow_prev := ControlFlow.Exit, control_flow := cb_id (Event.NewEvents StartCause.Poll) ControlFlow.Exit }, [Event.NewEvents StartCause.Poll]) :=
  cocoa_wakeup_exit_reports_poll cb_id ⟨ControlFlow.Exit, ControlFlow.Poll, true⟩ rfl rfl

/-- C7, counterexample.  The Cocoa `Proxy::send_event` body starts with
`unimplemented!()`, so it panics on every call instead of returning
`Ok(())` for a live loop: the part of the claim demanding that it
otherwise return `Ok(())` without panicking fails on the macOS
implementation. -/
theorem proxy_send_event_mac_panics_counterexample :
    mac_send_event 42 = none := by
  rfl

/-- C7, amended.  On X11 `EventsLoopProxy::wakeup` returns
`Err(Closed)` exactly when the owning loop has been dropped and otherwise
sets the `pending_wakeup` flag and returns `Ok(())`; on Win32
`EventLoopProxy::send_event` returns `Err(Closed)` exactly when the
thread-message target is gone and otherwise enqueues the payload and
returns `Ok(())`; the Cocoa `Proxy::send_event` is unimplemented and
panics unconditionally. -/
theorem proxy_send_event_closed_iff :
    (∀ t : X11ProxyTarget,
      ((x11_wakeup t).2 = Except.error EventsLoopClosed.Closed ↔ t.loop_alive = false) ∧
      (t.loop_alive = true →
        x11_wakeup t = ({ t with pending_wakeup := true }, Except.ok ()))) ∧
    (∀ (alive : Bool) (queue : List Nat) (payload : Nat),
      ((win32_send_event alive queue payload).2 =
          Except.error EventsLoopClosed.Closed ↔ alive = false) ∧
      (alive = true →
        win32_send_event alive queue payload = (queue ++ [payload], Except.ok ()))) ∧
    (∀ payload : Nat, mac_send_event payload = none) := by
  refine ⟨?_, ?_, fun _ => rfl⟩
  · intro t
    obtain ⟨al, pw⟩ := t
    cases al <;> simp [x11_wakeup]
  · intro alive queue payload
    cases alive <;> simp [win32_send_event]

/-- Witness for C7 (amended): a live X11 proxy target wakes up
successfully with the flag set, and a live Win32 target enqueues the
payload. -/
theorem proxy_send_event_closed_iff_witness :
    x11_wakeup ⟨true, false⟩ =
      ({ (⟨true, false⟩ : X11ProxyTarget) with pending_wakeup := true },
       Except.ok ()) ∧
    win32_send_event true [] 9 = ([9], Except.ok ()) :=
  ⟨(proxy_send_event_closed_iff.1 ⟨true, false⟩).2 rfl,
   (proxy_send_event_closed_iff.2.1 true [] 9).2 rfl⟩

/-- The telescoping of `scroll_feed`: the raw deltas sum to the total
travel over the increment, and the cached position ends at the last fed
value. -/
theorem scroll_feed_spec (info : ScrollAxis) (xs : List ℚ) :
    ((scroll_feed info xs).1).sum =
      (xs.getLastD info.position - info.position) / info.increment ∧
    (scroll_feed info xs).2.position = xs.getLastD info.position := by
  induction xs generalizing info with
  | nil => simp [scroll_feed]
  | cons x rest ih =>
      obtain ⟨h1, h2⟩ := ih { info with position := x }
      constructor
      · simp only [scroll_feed, scroll_update, List.sum_cons, List.getLastD_cons, h1]
        rw [div_add_div_same]
        ring_nf
      · simp only [scroll_feed, scroll_update, List.getLastD_cons, h2]

/-- C8.  Scroll-axis delta accounting: each valuator value `x` fed to a
cached scroll axis emits one delta equal to `(x − position)/increment` and
updates the cached position to `x`; the emitted `LineDelta` carries the
delta on the x component for a horizontal axis and the negated delta on
the y component for a vertical axis; consequently, over any sequence of
valuator events the emitted deltas sum to `(final − initial)/increment`,
and the vertical components sum to the negation of that value. -/
theorem scroll_axis_delta_accounting :
    (∀ (info : ScrollAxis) (x : ℚ),
      (scroll_update info x).1 = (x - info.position) / info.increment ∧
      (scroll_update info x).2.position = x) ∧
    (∀ delta : ℚ,
      line_delta ScrollOrientation.Horizontal delta = (delta, 0) ∧
      line_delta ScrollOrientation.Vertical delta = (0, -delta)) ∧
    (∀ (info : ScrollAxis) (xs : List ℚ),
      ((scroll_feed info xs).1).sum =
        (xs.getLastD info.position - info.position) / info.increment ∧
      (scroll_feed info xs).2.position = xs.getLastD info.position ∧
      (((scroll_feed info xs).1).map (fun d => (line_delta ScrollOrientation.Vertical d).2)).sum =
        -((xs.getLastD info.position - info.position) / info.increment)) := by
  refine ⟨fun info x => ⟨rfl, rfl⟩, fun delta => ⟨rfl, rfl⟩, fun info xs => ?_⟩
  obtain ⟨h1, h2⟩ := scroll_feed_spec info xs
  refine ⟨h1, h2, ?_⟩
  have hld : (((scroll_feed info xs).1).map (fun d => (line_delta ScrollOrientation.Vertical d).2)) =
      ((scroll_feed info xs).1).map (fun d => -d) := by
    simp [line_delta]
  have hneg : ∀ l : List ℚ, (l.map (fun d => -d)).sum = -(l.sum) := by
    intro l
    induction l with
    | nil => simp
    | cons a l2 ihl =>
        simp only [List.map_cons, List.sum_cons, ihl]
        ring
  rw [hld, hneg, h1]

/-- C9.  `dur2timeout` equals the duration in milliseconds rounded up to
the next whole millisecond whenever that value fits in a `u32`, and equals
`INFINITE` whenever the millisecond count exceeds `u32::MAX` — including
every case in which an intermediate checked `u64` operation overflows,
which saturates to `INFINITE` rather than wrapping. -/
theorem dur2timeout_rounds_up_saturating (dur : Duration) :
    dur2timeout dur = if roundUpMs dur ≤ u32_max then roundUpMs dur else INFINITE := by
  obtain ⟨s, n, hn⟩ := dur
  have h64 : u64_max = 18446744073709551615 := by norm_num [u64_max]
  have h32 : u32_max = 4294967295 := by norm_num [u32_max]
  have hru : roundUpMs ⟨s, n, hn⟩ = (s * 1000000000 + n + 999999) / 1000000 := rfl
  by_cases h4 : n % 1000000 > 0 <;>
  · by_cases h1 : s * 1000 ≤ u64_max
    · by_cases h2 : s * 1000 + n / 1000000 ≤ u64_max
      · by_cases h3 : s * 1000 + n / 1000000 +
            (if n % 1000000 > 0 then 1 else 0) ≤ u64_max <;>
        · simp only [h4, if_true, if_false, ite_true, ite_false] at h3
          simp [dur2timeout, checked_mul64, checked_add64, h1, h2, h3, h4, hru,
            INFINITE, h32]
          all_goals simp only [h64] at h1 h2 h3
          all_goals split_ifs <;> omega
      · simp [dur2timeout, checked_mul64, checked_add64, h1, h2, h4, hru,
          INFINITE, h32]
        all_goals simp only [h64] at h1 h2
        all_goals split_ifs <;> omega
    · simp [dur2timeout, checked_mul64, checked_add64, h1, h4, hru,
        INFINITE, h32]
      all_goals simp only [h64] at h1
      all_goals split_ifs <;> omega

end Winit
